import Mathlib

/-!
Verification of the pagination core of the `cmr-website` repository
(`src/blog/models.py`, class `BlogMain`).

The embedding below translates, line by line, the pagination helpers of
`BlogMain`:

* `get_paginator`        (models.py lines 219-224)
* `get_paginated_posts`  (models.py lines 226-236)
* `get_paginator_items`  (models.py lines 238-283)

together with the module constants `PAGINATION_MIN_PAGES = 7` and
`PAGINATION_BOUNDARY = 3` (lines 30-31).

The external `django.core.paginator.Paginator` is not part of `src/`; its
slicing and validation semantics are modelled separately (see `Paginator`
below).  Python machine integers are arbitrary precision, so `Int`/`Nat`
model them exactly.
-/

/-- Constant `PAGINATION_MIN_PAGES` from models.py line 30. -/
def PAGINATION_MIN_PAGES : Nat := 7

/-- Constant `PAGINATION_BOUNDARY` from models.py line 31. -/
def PAGINATION_BOUNDARY : Nat := 3

/-- The raw `page` query-string parameter, `request.GET.get('page')` in
Python: either absent (`None`), a string that `int()` cannot parse, or a
value that `int()` parses to an integer. -/
inductive PageParam : Type
  | absent : PageParam
  | notAnInt : PageParam
  | int : Int → PageParam
deriving DecidableEq

/-- Python exceptions raised by `int(...)`: `int(None)` raises `TypeError`,
`int('abc')` raises `ValueError`. -/
inductive PyExc : Type
  | typeError : PyExc
  | valueError : PyExc
deriving DecidableEq

/-- Python's `int(page)` applied to the raw parameter. -/
def parseInt : PageParam → Except PyExc Int
  | PageParam.absent => Except.error PyExc.typeError
  | PageParam.notAnInt => Except.error PyExc.valueError
  | PageParam.int n => Except.ok n

/-- Modelled from the spec: the external `django.core.paginator.Paginator`
(imported at models.py line 3; its implementation is not under `src/`).
Per the spec, `paginate` works over an ordered item collection and a page
size; `total_pages = ceil(total_items / page_size)`, minimum 1, and a page
is the slice at offset `(page_number - 1) * page_size` of length at most
`page_size`.  Django's `Paginator` (with default `orphans = 0` and
`allow_empty_first_page = True`) implements exactly that. -/
structure Paginator (α : Type) : Type where
  object_list : List α
  per_page : Nat

/-- Django's `Paginator.num_pages` with `orphans = 0` and
`allow_empty_first_page = True`: `ceil (max 1 count / per_page)`,
written with Nat ceiling division. -/
def Paginator.num_pages {α : Type} (p : Paginator α) : Nat :=
  (max 1 p.object_list.length + p.per_page - 1) / p.per_page

/-- The item slice of one page: Django's `Paginator.page(number)` returns
`object_list[(number-1)*per_page : (number-1)*per_page + per_page]`. -/
def Paginator.pageItems {α : Type} (p : Paginator α) (number : Nat) : List α :=
  (p.object_list.drop ((number - 1) * p.per_page)).take p.per_page

/-- Errors raised by Django's `Paginator.validate_number`: these are the
two exception classes that `get_paginated_posts` catches at models.py
lines 231-234. -/
inductive PageError : Type
  | pageNotAnInteger : PageError
  | emptyPage : PageError
deriving DecidableEq

/-- Django's `Paginator.validate_number`: a number that `int()` cannot
parse raises `PageNotAnInteger`; an integer `< 1` or `> num_pages` raises
`EmptyPage` (with `num_pages ≥ 1` always, the `allow_empty_first_page`
escape for page 1 of an empty collection never fires). -/
def Paginator.validate_number {α : Type} (p : Paginator α) (number : PageParam) :
    Except PageError Nat :=
  match parseInt number with
  | Except.error _ => Except.error PageError.pageNotAnInteger
  | Except.ok n =>
      if n < 1 then Except.error PageError.emptyPage
      else if (p.num_pages : Int) < n then Except.error PageError.emptyPage
      else Except.ok n.toNat

/-- `BlogMain.get_paginator` (models.py lines 219-224): builds the
paginator over `all_posts[1:]` when there is more than one post and
`all=False`, otherwise over the whole collection; `per_page` is the
`max_recent` site field. -/
def get_paginator {α : Type} (all_posts : List α) (max_recent : Nat) (all : Bool) :
    Paginator α :=
  if 1 < all_posts.length ∧ all = false then
    { object_list := all_posts.drop 1, per_page := max_recent }
  else
    { object_list := all_posts, per_page := max_recent }

/-- `BlogMain.get_paginated_posts` (models.py lines 226-236): requests the
page, mapping `PageNotAnInteger` to page 1 and `EmptyPage` to the last
page.  The result models the Django `Page` object as the pair of its
`number` and its item slice. -/
def get_paginated_posts {α : Type} (p : Paginator α) (page : PageParam) :
    Nat × List α :=
  match p.validate_number page with
  | Except.ok n => (n, p.pageItems n)
  | Except.error PageError.pageNotAnInteger => (1, p.pageItems 1)
  | Except.error PageError.emptyPage => (p.num_pages, p.pageItems p.num_pages)

/-- Local variable `lower_boundary` of `get_paginator_items`
(models.py line 257). -/
def lower_boundary : Nat := PAGINATION_BOUNDARY

/-- Local variable `upper_boundary` of `get_paginator_items`
(models.py line 258): `paginator.num_pages - PAGINATION_BOUNDARY + 1`,
computed in Python's unbounded integers. -/
def upper_boundary (num_pages : Nat) : Int :=
  (num_pages : Int) - (PAGINATION_BOUNDARY : Int) + 1

/-- One iteration of the `for i in range(1, paginator.num_pages + 1)` loop
of `get_paginator_items` (models.py lines 266-281), acting on the state
`(items, ellipse)`.  The branches appear in source order. -/
def pagerStep (num_pages : Nat) (page : Int) (st : List Nat × Bool) (i : Nat) :
    List Nat × Bool :=
  if i ≤ lower_boundary then (st.1 ++ [i], st.2)
  else if i = lower_boundary + 1 ∧ (i : Int) = page then (st.1 ++ [i], st.2)
  else if (i : Int) = upper_boundary num_pages - 1 ∧ (i : Int) = page then
    (st.1 ++ [i], st.2)
  else if upper_boundary num_pages ≤ (i : Int) then (st.1 ++ [i], st.2)
  else if (i : Int) = page then (st.1 ++ [i], true)
  else if st.2 = true then (st.1 ++ [0], false)
  else (st.1, false)

/-- The `items` list produced by the loop of `get_paginator_items`
(models.py lines 259-283), starting from `items = []` and
`ellipse = True`. -/
def pagerItems (num_pages : Nat) (page : Int) : List Nat :=
  ((List.range' 1 num_pages).foldl (pagerStep num_pages page) ([], true)).1

/-- `BlogMain.get_paginator_items` (models.py lines 238-283), as a function
of `paginator.num_pages`, of `int(site_settings.pagination_max_pages)` and
of the raw `page` parameter (the only data of `paginator`, the settings and
`request` that the body reads).  `0` is the ellipsis placeholder.  Note the
bare `int(page)` at line 262: when `num_pages` exceeds `max_pages` and the
parameter is absent or unparseable, the exception propagates uncaught. -/
def get_paginator_items (num_pages : Nat) (pagination_max_pages : Int)
    (page : PageParam) : Except PyExc (List Nat) :=
  if (num_pages : Int) ≤ max (PAGINATION_MIN_PAGES : Int) pagination_max_pages then
    Except.ok (List.range' 1 num_pages)
  else
    match parseInt page with
    | Except.error e => Except.error e
    | Except.ok pg =>
        Except.ok (pagerItems num_pages (min (max 1 pg) (num_pages : Int)))

/-- When `num_pages` is at most the effective maximum, `get_paginator_items`
returns the full page range (models.py lines 252-253). -/
lemma get_paginator_items_of_le (np : Nat) (cfg : Int) (param : PageParam)
    (h : (np : Int) ≤ max (PAGINATION_MIN_PAGES : Int) cfg) :
    get_paginator_items np cfg param = Except.ok (List.range' 1 np) := by
  unfold get_paginator_items
  simp [h]

/-- C1: the claim asserts that for `total_pages = 20`, `current_page = 10`,
`max_visible_pages = 7`, `boundary_count = 3` the display contains the
neighbors 9 and 11 as literal tokens.  The code's output is
`[1, 2, 3, 0, 10, 0, 18, 19, 20]`, which does not contain 9 (nor 11). -/
theorem C1_counterexample :
    get_paginator_items 20 7 (PageParam.int 10) =
      Except.ok [1, 2, 3, 0, 10, 0, 18, 19, 20] ∧
    (9 : Nat) ∉ [1, 2, 3, 0, 10, 0, 18, 19, 20] :=
  ⟨by rfl, by decide⟩

/-- C1 (amended): in the ellipsis case the display keeps the boundary pages
and the current page itself literally visible, but not the current page's
neighbors: `get_paginator_items(total_pages = 20, current_page = 10,
max_visible_pages = 7, boundary_count = 3)` is exactly
`[1, 2, 3, ellipsis, 10, ellipsis, 18, 19, 20]`, with exactly one ellipsis
on each side, boundaries 1-3 and 18-20 literal, and 10 literal, while 9 and
11 are elided. -/
theorem C1_amended_display :
    get_paginator_items 20 7 (PageParam.int 10) =
      Except.ok [1, 2, 3, 0, 10, 0, 18, 19, 20] ∧
    (10 : Nat) ∈ [1, 2, 3, 0, 10, 0, 18, 19, 20] ∧
    ([1, 2, 3, 0, 10, 0, 18, 19, 20].count (0 : Nat)) = 2 ∧
    [1, 2, 3, 0, 10, 0, 18, 19, 20].take 3 = [1, 2, 3] ∧
    [1, 2, 3, 0, 10, 0, 18, 19, 20].drop 6 = [18, 19, 20] :=
  ⟨by rfl, by decide, by decide, by decide, by decide⟩

/-- C2: on a request with 21 pagination pages (so the ellipsis branch is
taken), an absent `page` parameter makes `get_paginator_items` evaluate
`int(None)` (models.py line 262), which raises an uncaught `TypeError`
(`ValueError` for a non-integer string); `get_paginated_posts` on the very
same request still returns page 1.  So the pager token sequence is NOT
produced, contradicting the claim that malformed input is never an
error. -/
theorem C2_pager_crash_on_malformed_param :
    get_paginator_items 21 7 PageParam.absent = Except.error PyExc.typeError ∧
    get_paginator_items 21 7 PageParam.notAnInt = Except.error PyExc.valueError ∧
    (get_paginated_posts { object_list := List.range 21, per_page := 1 }
        PageParam.absent).1 = 1 ∧
    Paginator.num_pages { object_list := List.range 21, per_page := 1 } = 21 :=
  ⟨by rfl, by rfl, by rfl, by rfl⟩

/-- C3: the claim asserts that a `current_page` outside `[1, total_pages]`
makes the display operation fail with `InvalidConfiguration` and is never
silently clamped.  The code clamps: with `total_pages = 20` a requested
page 999 succeeds and produces exactly the display of page 20. -/
theorem C3_counterexample :
    get_paginator_items 20 7 (PageParam.int 999) =
      Except.ok [1, 2, 3, 0, 18, 19, 20] ∧
    get_paginator_items 20 7 (PageParam.int 999) =
      get_paginator_items 20 7 (PageParam.int 20) :=
  ⟨by rfl, by rfl⟩

/-- C3 (amended): the code defines no `InvalidConfiguration` error.  An
integer `current_page` is silently clamped into `[1, total_pages]` by
`min(max(1, int(page)), num_pages)` (models.py line 262) — the result is
the same as for the clamped page and is always a value, never an
exception.  (The effective maximum is likewise silently raised to at least
`PAGINATION_MIN_PAGES = 7 = 2*boundary_count + 1`, models.py line 249.) -/
theorem C3_amended_silent_clamping (np : Nat) (cfg : Int) (n : Int) :
    get_paginator_items np cfg (PageParam.int n) =
      get_paginator_items np cfg (PageParam.int (min (max 1 n) (np : Int))) ∧
    ∃ out, get_paginator_items np cfg (PageParam.int n) = Except.ok out := by
  unfold get_paginator_items
  by_cases h : (np : Int) ≤ max (PAGINATION_MIN_PAGES : Int) cfg
  · simp [h]
  · have hc : min (max 1 (min (max 1 n) (np : Int))) (np : Int) =
        min (max 1 n) (np : Int) := by omega
    simp [h, parseInt, hc]

/-- C4: the claim asserts that a parseable `requested_page < 1` yields
page 1.  With 13 items and page size 6 (3 pages), requesting page 0 makes
Django's `validate_number` raise `EmptyPage`, which `get_paginated_posts`
maps to the LAST page (models.py lines 233-234): the returned page number
is 3, not 1. -/
theorem C4_counterexample :
    (get_paginated_posts { object_list := List.range 13, per_page := 6 }
        (PageParam.int 0)).1 = 3 ∧ (3 : Nat) ≠ 1 :=
  ⟨by rfl, by decide⟩

/-- C4 (amended): a `requested_page` parseable as an integer but `< 1`
raises `EmptyPage` inside the paginator and `get_paginated_posts` returns
the last page: `page_number = total_pages` (equal to 1 only when there is a
single page). -/
theorem C4_amended_lt_one_gives_last_page {α : Type} (l : List α) (per : Nat)
    (hper : 1 ≤ per) (n : Int) (hn : n < 1) :
    get_paginated_posts { object_list := l, per_page := per } (PageParam.int n) =
      (Paginator.num_pages { object_list := l, per_page := per },
       Paginator.pageItems { object_list := l, per_page := per }
         (Paginator.num_pages { object_list := l, per_page := per })) := by
  unfold get_paginated_posts Paginator.validate_number parseInt
  simp [hn]

/-- Witness for C4 (amended) at 13 items, page size 6, requested page -5. -/
theorem C4_amended_witness :
    get_paginated_posts { object_list := List.range 13, per_page := 6 }
        (PageParam.int (-5)) =
      (Paginator.num_pages { object_list := List.range 13, per_page := 6 },
       Paginator.pageItems { object_list := List.range 13, per_page := 6 }
         (Paginator.num_pages { object_list := List.range 13, per_page := 6 })) :=
  C4_amended_lt_one_gives_last_page (List.range 13) 6 (by decide) (-5) (by decide)

/-- C7: when `total_pages` is at least 1 and at most the effective maximum
(equality included), the display is exactly the page numbers
`1..total_pages` in strictly increasing order, with no ellipsis token. -/
theorem C7_all_pages_when_few (np : Nat) (cfg : Int) (param : PageParam)
    (h1 : 1 ≤ np) (h2 : (np : Int) ≤ max (PAGINATION_MIN_PAGES : Int) cfg) :
    get_paginator_items np cfg param = Except.ok (List.range' 1 np) ∧
    (List.range' 1 np).Chain' (· < ·) ∧ (0 : Nat) ∉ List.range' 1 np := by
  refine ⟨get_paginator_items_of_le np cfg param h2, ?_, ?_⟩
  · exact (List.pairwise_lt_range' 1 np).chain'
  · intro hmem
    have := (List.mem_range'_1).mp hmem
    omega

/-- Witness for C7 at `total_pages = max_visible_pages = 7` (the exact
equality case). -/
theorem C7_witness :
    get_paginator_items 7 7 (PageParam.int 3) = Except.ok (List.range' 1 7) ∧
    (List.range' 1 7).Chain' (· < ·) ∧ (0 : Nat) ∉ List.range' 1 7 :=
  C7_all_pages_when_few 7 7 (PageParam.int 3) (by decide) (by decide)

/-- C8: the effective maximum used by `get_paginator_items` is
`max(PAGINATION_MIN_PAGES, configured)` with `PAGINATION_MIN_PAGES = 7`,
so it is never below 7; consequently whenever `total_pages ≤ 7` every page
number is shown without ellipsis, whatever the configured value. -/
theorem C8_effective_max_at_least_seven (cfg : Int) :
    (7 : Int) ≤ max (PAGINATION_MIN_PAGES : Int) cfg ∧
    ∀ (np : Nat) (param : PageParam), (np : Int) ≤ 7 →
      get_paginator_items np cfg param = Except.ok (List.range' 1 np) := by
  have h7 : ((PAGINATION_MIN_PAGES : Nat) : Int) = 7 := by norm_num [PAGINATION_MIN_PAGES]
  constructor
  · calc (7 : Int) = (PAGINATION_MIN_PAGES : Int) := h7.symm
      _ ≤ max (PAGINATION_MIN_PAGES : Int) cfg := le_max_left _ _
  · intro np param hnp
    refine get_paginator_items_of_le np cfg param (le_trans hnp ?_)
    rw [← h7]
    exact le_max_left _ _

/-- Witness for C8: a configured maximum of 2 (below 7) still shows all of
7 pages without ellipsis. -/
theorem C8_witness :
    get_paginator_items 7 2 PageParam.absent = Except.ok (List.range' 1 7) :=
  (C8_effective_max_at_least_seven 2).2 7 PageParam.absent (by decide)

/-- Concatenating the successive chunks of size `per` of a list whose
length is at most `k * per` recovers the list. -/
lemma flatten_chunks {α : Type} (per : Nat) :
    ∀ (k : Nat) (l : List α), l.length ≤ k * per →
      ((List.range k).map (fun j => (l.drop (j * per)).take per)).flatten = l := by
  intro k
  induction k with
  | zero =>
      intro l hl
      have : l = [] := List.length_eq_zero.mp (by omega)
      subst this
      simp
  | succ k ih =>
      intro l hl
      rw [List.range_succ_eq_map, List.map_cons, List.map_map, List.flatten_cons]
      have hmap : (List.range k).map
            ((fun j => (l.drop (j * per)).take per) ∘ Nat.succ) =
          (List.range k).map (fun j => ((l.drop per).drop (j * per)).take per) := by
        refine List.map_congr_left fun j _ => ?_
        simp only [Function.comp_apply]
        rw [Nat.succ_mul, Nat.add_comm (j * per) per, ← List.drop_drop]
      have hlen : (l.drop per).length ≤ k * per := by
        rw [List.length_drop]
        rw [Nat.succ_mul] at hl
        omega
      rw [hmap, ih (l.drop per) hlen]
      simp

/-- The pages of a paginator are enough to cover the whole collection:
`num_pages * per_page` is at least the collection's length. -/
lemma length_le_num_pages_mul {α : Type} (l : List α) (per : Nat) (hper : 1 ≤ per) :
    l.length ≤ (Paginator.num_pages { object_list := l, per_page := per }) * per := by
  have hla : l.length ≤ max 1 l.length := le_max_right _ _
  simp only [Paginator.num_pages]
  rw [Nat.mul_comm]
  have hdm := Nat.div_add_mod (max 1 l.length + per - 1) per
  have hml : (max 1 l.length + per - 1) % per < per := Nat.mod_lt _ (by omega)
  generalize (max 1 l.length + per - 1) % per = r at hdm hml
  generalize per * ((max 1 l.length + per - 1) / per) = B at hdm ⊢
  generalize max 1 l.length = a at hla hdm
  omega

/-- C6: for every collection and every page size at least 1, each page
slice has at most `page_size` items, concatenating the slices over the
valid page numbers `1..total_pages` yields the entire collection, and the
item counts sum to the total number of items. -/
theorem C6_pages_partition {α : Type} (l : List α) (per : Nat) (hper : 1 ≤ per) :
    (∀ n : Nat,
      (Paginator.pageItems { object_list := l, per_page := per } n).length ≤ per) ∧
    ((List.range' 1 (Paginator.num_pages { object_list := l, per_page := per })).map
        (fun n => Paginator.pageItems { object_list := l, per_page := per } n)).flatten
      = l ∧
    ((List.range' 1 (Paginator.num_pages { object_list := l, per_page := per })).map
        (fun n =>
          (Paginator.pageItems { object_list := l, per_page := per } n).length)).sum
      = l.length := by
  have hflat :
      ((List.range' 1 (Paginator.num_pages { object_list := l, per_page := per })).map
          (fun n => Paginator.pageItems { object_list := l, per_page := per } n)).flatten
        = l := by
    rw [List.range'_eq_map_range, List.map_map]
    have hcongr : (List.range
          (Paginator.num_pages { object_list := l, per_page := per })).map
          ((fun n => Paginator.pageItems { object_list := l, per_page := per } n) ∘
            (1 + ·)) =
        (List.range (Paginator.num_pages { object_list := l, per_page := per })).map
          (fun j => (l.drop (j * per)).take per) := by
      refine List.map_congr_left fun j _ => ?_
      simp only [Function.comp_apply, Paginator.pageItems]
      have h1 : 1 + j - 1 = j := by omega
      rw [h1]
    rw [hcongr]
    exact flatten_chunks per _ l (length_le_num_pages_mul l per hper)
  refine ⟨?_, hflat, ?_⟩
  · intro n
    simp only [Paginator.pageItems]
    simpa using List.length_take_le per _
  · have := congrArg List.length hflat
    rw [List.length_flatten, List.map_map] at this
    simpa using this

/-- Witness for C6 at 13 items and page size 6. -/
theorem C6_witness :
    (Paginator.pageItems { object_list := List.range 13, per_page := 6 } 3).length ≤ 6 ∧
    ((List.range' 1
        (Paginator.num_pages { object_list := List.range 13, per_page := 6 })).map
        (fun n =>
          Paginator.pageItems { object_list := List.range 13, per_page := 6 } n)).flatten
      = List.range 13 :=
  ⟨(C6_pages_partition (List.range 13) 6 (by decide)).1 3,
   (C6_pages_partition (List.range 13) 6 (by decide)).2.1⟩

/-- C9: with more than one published post, the landing-page paginator
(`all = False`) is built over all posts except the first, so the promo
post (the head of the collection, with no duplicates) is on no paginated
page, while the tag-archive paginator (`all = True`) covers every matching
post. -/
theorem C9_promo_excluded {α : Type} (posts : List α) (max_recent : Nat)
    (hlen : 1 < posts.length) (hnd : posts.Nodup) :
    (get_paginator posts max_recent false).object_list = posts.drop 1 ∧
    (∀ promo, posts.head? = some promo →
      ∀ n, promo ∉ (get_paginator posts max_recent false).pageItems n) ∧
    (get_paginator posts max_recent true).object_list = posts := by
  have hfalse : get_paginator posts max_recent false =
      { object_list := posts.drop 1, per_page := max_recent } := by
    unfold get_paginator
    rw [if_pos ⟨hlen, rfl⟩]
  have htrue : (get_paginator posts max_recent true).object_list = posts := by
    unfold get_paginator
    rw [if_neg]
    rintro ⟨-, h⟩
    exact absurd h (by decide)
  refine ⟨by rw [hfalse], ?_, htrue⟩
  intro promo hpromo n hmem
  rw [hfalse] at hmem
  simp only [Paginator.pageItems] at hmem
  have h1 : promo ∈ posts.drop 1 :=
    List.mem_of_mem_drop (List.mem_of_mem_take hmem)
  cases posts with
  | nil => simp at hlen
  | cons p t =>
      have hph : promo = p := by
        simp only [List.head?_cons, Option.some.injEq] at hpromo
        exact hpromo.symm
      have hdrop : (p :: t).drop 1 = t := rfl
      rw [hdrop] at h1
      have hpt : p ∉ t := (List.nodup_cons.mp hnd).1
      rw [hph] at h1
      exact hpt h1

/-- Witness for C9: with posts `[10, 20, 30]`, the promo post 10 is not on
page 1 of the landing-page paginator. -/
theorem C9_witness :
    (10 : Nat) ∉ (get_paginator [10, 20, 30] 6 false).pageItems 1 :=
  (C9_promo_excluded [10, 20, 30] 6 (by decide) (by decide)).2.1 10 rfl 1

/-- Two adjacent pager tokens are never both the ellipsis placeholder 0. -/
def noDoubleZero (a b : Nat) : Prop := ¬(a = 0 ∧ b = 0)

/-- A list with no zero at all trivially has no two adjacent zeros. -/
lemma chain_nd_of_ne_zero : ∀ (l : List Nat), (∀ x ∈ l, x ≠ 0) →
    l.Chain' noDoubleZero
  | [], _ => List.chain'_nil
  | [a], _ => List.chain'_singleton a
  | a :: b :: t, h => by
      rw [List.chain'_cons]
      refine ⟨fun hc => h b (by simp) hc.2,
        chain_nd_of_ne_zero (b :: t) fun x hx => h x (List.mem_cons_of_mem a hx)⟩

/-- Appending a nonzero token preserves the no-double-zero chain. -/
lemma chain_nd_append_ne (items : List Nat) (a : Nat) (ha : a ≠ 0)
    (h : items.Chain' noDoubleZero) : (items ++ [a]).Chain' noDoubleZero := by
  rw [List.chain'_append]
  refine ⟨h, List.chain'_singleton a, ?_⟩
  intro x _ y hy
  simp only [List.head?_cons, Option.mem_def, Option.some.injEq] at hy
  subst hy
  exact fun hc => ha hc.2

/-- Appending the ellipsis token preserves the chain provided the current
last token is not itself an ellipsis. -/
lemma chain_nd_append_zero (items : List Nat)
    (h : items.Chain' noDoubleZero)
    (hl : ∀ x, items.getLast? = some x → x ≠ 0) :
    (items ++ [0]).Chain' noDoubleZero := by
  rw [List.chain'_append]
  refine ⟨h, List.chain'_singleton 0, ?_⟩
  intro x hx y _
  exact fun hc => hl x (Option.mem_def.mp hx) hc.1

/-- The no-double-zero invariant together with the flag invariant after
appending a nonzero token, with an arbitrary resulting flag. -/
lemma nd_inv_append_ne (items : List Nat) (fl : Bool) (a : Nat) (ha : 1 ≤ a)
    (hch : items.Chain' noDoubleZero) :
    (items ++ [a]).Chain' noDoubleZero ∧
      (fl = true → ∀ x, (items ++ [a]).getLast? = some x → x ≠ 0) := by
  refine ⟨chain_nd_append_ne items a (by omega) hch, ?_⟩
  intro _ x hx
  rw [List.getLast?_concat] at hx
  injection hx with h
  omega

/-- Main loop invariant for the ellipsis-collapse flag of
`get_paginator_items`: the accumulated token list never holds two adjacent
zeros, and whenever the `ellipse` flag is set the list does not end in a
zero. -/
lemma nd_key (np : Nat) (pg : Int) :
    ∀ (l : List Nat) (st : List Nat × Bool), (∀ i ∈ l, 1 ≤ i) →
      st.1.Chain' noDoubleZero →
      (st.2 = true → ∀ x, st.1.getLast? = some x → x ≠ 0) →
      ((l.foldl (pagerStep np pg) st).1.Chain' noDoubleZero ∧
        ((l.foldl (pagerStep np pg) st).2 = true →
          ∀ x, (l.foldl (pagerStep np pg) st).1.getLast? = some x → x ≠ 0))
  | [], st, _, h2, h3 => ⟨h2, h3⟩
  | a :: t, st, h1, h2, h3 => by
      have ha : 1 ≤ a := h1 a (List.mem_cons_self a t)
      have ht : ∀ i ∈ t, 1 ≤ i := fun i hi => h1 i (List.mem_cons_of_mem a hi)
      rw [List.foldl_cons]
      have hstep : (pagerStep np pg st a).1.Chain' noDoubleZero ∧
          ((pagerStep np pg st a).2 = true →
            ∀ x, (pagerStep np pg st a).1.getLast? = some x → x ≠ 0) := by
        simp only [pagerStep]
        split_ifs with hb1 hb2 hb3 hb4 hb5 hb6
        · exact nd_inv_append_ne st.1 st.2 a ha h2
        · exact nd_inv_append_ne st.1 st.2 a ha h2
        · exact nd_inv_append_ne st.1 st.2 a ha h2
        · exact nd_inv_append_ne st.1 st.2 a ha h2
        · exact nd_inv_append_ne st.1 true a ha h2
        · exact ⟨chain_nd_append_zero st.1 h2 (h3 hb6), fun hft => absurd hft (by decide)⟩
        · exact ⟨h2, fun hft => absurd hft (by decide)⟩
      exact nd_key np pg t (pagerStep np pg st a) ht hstep.1 hstep.2

/-- C5: every token sequence the pager-display operation actually returns
(for any total page count, configured maximum and raw page parameter) has
no two consecutive ellipsis tokens. -/
theorem C5_no_consecutive_ellipsis (np : Nat) (cfg : Int) (param : PageParam)
    (out : List Nat) (h : get_paginator_items np cfg param = Except.ok out) :
    out.Chain' noDoubleZero := by
  unfold get_paginator_items at h
  by_cases hle : (np : Int) ≤ max (PAGINATION_MIN_PAGES : Int) cfg
  · rw [if_pos hle] at h
    injection h with h
    subst h
    refine chain_nd_of_ne_zero _ fun x hx => ?_
    have := List.mem_range'_1.mp hx
    omega
  · rw [if_neg hle] at h
    cases param with
    | absent => simp [parseInt] at h
    | notAnInt => simp [parseInt] at h
    | int n =>
        simp only [parseInt] at h
        injection h with h
        subst h
        unfold pagerItems
        refine (nd_key np _ (List.range' 1 np) ([], true)
          (fun i hi => (List.mem_range'_1.mp hi).1) List.chain'_nil ?_).1
        intro _ x hx
        simp at hx

/-- Witness for C5 on the concrete display for 20 pages, current page 10. -/
theorem C5_witness :
    List.Chain' noDoubleZero [1, 2, 3, 0, 10, 0, 18, 19, 20] :=
  C5_no_consecutive_ellipsis 20 7 (PageParam.int 10)
    [1, 2, 3, 0, 10, 0, 18, 19, 20] (by rfl)

/-- A value appearing as `getLast?` belongs to the list. -/
lemma mem_of_getLast_opt {α : Type} {l : List α} {a : α}
    (h : l.getLast? = some a) : a ∈ l := by
  obtain ⟨hne, hx⟩ := List.mem_getLast?_eq_getLast (Option.mem_def.mpr h)
  rw [hx]
  exact List.getLast_mem hne

/-- In a duplicate-free list at most one element casts to the fixed
integer `pg`. -/
lemma countP_le_one_of_eq (pg : Int) :
    ∀ (l : List Nat), l.Nodup → l.countP (fun (i : Nat) => ((i : Int) == pg)) ≤ 1
  | [], _ => by simp
  | a :: t, h => by
      obtain ⟨hat, hnd⟩ := List.nodup_cons.mp h
      have ih := countP_le_one_of_eq pg t hnd
      by_cases hpa : (a : Int) = pg
      · have hz : t.countP (fun (i : Nat) => ((i : Int) == pg)) = 0 := by
          rw [List.countP_eq_zero]
          intro b hb hpb
          have hb' : (b : Int) = pg := by simpa using hpb
          have hba : b = a := by omega
          rw [hba] at hb
          exact hat hb
        simp [List.countP_cons, hpa, hz]
      · simpa [List.countP_cons, hpa] using ih

/-- Outcome classification of one loop iteration: it either appends the
literal page number (keeping or setting the flag), appends one ellipsis
token while clearing the flag, or appends nothing. -/
lemma pagerStep_cases (np : Nat) (pg : Int) (items : List Nat) (fl : Bool) (a : Nat) :
    (pagerStep np pg (items, fl) a = (items ++ [a], fl)) ∨
    (pagerStep np pg (items, fl) a = (items ++ [a], true) ∧ (a : Int) = pg) ∨
    (pagerStep np pg (items, fl) a = (items ++ [0], false) ∧ fl = true) ∨
    (pagerStep np pg (items, fl) a = (items, false)) := by
  simp only [pagerStep]
  split_ifs with h1 h2 h3 h4 h5 h6
  · exact Or.inl rfl
  · exact Or.inl rfl
  · exact Or.inl rfl
  · exact Or.inl rfl
  · exact Or.inr (Or.inl ⟨rfl, h5⟩)
  · exact Or.inr (Or.inr (Or.inl ⟨rfl, h6⟩))
  · exact Or.inr (Or.inr (Or.inr rfl))

/-- The loop appends at most one ellipsis token per setting of the
`ellipse` flag: the count of zeros plus the live flag is bounded by the
initial budget plus the number of loop indices equal to the current
page. -/
lemma zeros_key (np : Nat) (pg : Int) :
    ∀ (l : List Nat) (items : List Nat) (fl : Bool), (∀ i ∈ l, 1 ≤ i) →
      (l.foldl (pagerStep np pg) (items, fl)).1.count 0 +
          ((l.foldl (pagerStep np pg) (items, fl)).2).toNat ≤
        items.count 0 + fl.toNat + l.countP (fun (i : Nat) => ((i : Int) == pg))
  | [], items, fl, _ => by simp
  | a :: t, items, fl, h1 => by
      have ha : 1 ≤ a := h1 a (List.mem_cons_self a t)
      have ht : ∀ i ∈ t, 1 ≤ i := fun i hi => h1 i (List.mem_cons_of_mem a hi)
      have hca : List.count 0 [a] = 0 := by
        rw [List.count_singleton', if_neg (by omega : ¬ a = 0)]
      rw [List.foldl_cons]
      simp only [List.countP_cons]
      refine le_trans (zeros_key np pg t (pagerStep np pg (items, fl) a).1
        (pagerStep np pg (items, fl) a).2 ht) ?_
      by_cases hpg : (a : Int) = pg
      · have hif : (if ((a : Int) == pg) = true then 1 else 0) = 1 := by simp [hpg]
        rw [hif]
        have hstep : (pagerStep np pg (items, fl) a).1.count 0 +
            (pagerStep np pg (items, fl) a).2.toNat ≤
            items.count 0 + fl.toNat + 1 := by
          rcases pagerStep_cases np pg items fl a with h | ⟨h, -⟩ | ⟨h, hfl⟩ | h <;>
            rw [h]
          · simp [List.count_append, hca]
          · simp [List.count_append, hca]
          · simp [List.count_append, hfl]
          · simp
            omega
        omega
      · have hif : (if ((a : Int) == pg) = true then 1 else 0) = 0 := by simp [hpg]
        rw [hif]
        have hstep : (pagerStep np pg (items, fl) a).1.count 0 +
            (pagerStep np pg (items, fl) a).2.toNat ≤
            items.count 0 + fl.toNat := by
          rcases pagerStep_cases np pg items fl a with h | ⟨-, hpg2⟩ | ⟨h, hfl⟩ | h
          · rw [h]
            simp [List.count_append, hca]
          · exact absurd hpg2 hpg
          · rw [h]
            simp [List.count_append, hfl]
          · rw [h]
            simp
        omega

/-- Loop invariant for strict monotonicity: every nonzero token already
emitted is below every index still to process, so the nonzero tokens of
the final list form a strictly increasing sequence. -/
lemma filter_chain_key (np : Nat) (pg : Int) :
    ∀ (l : List Nat) (items : List Nat) (fl : Bool),
      (∀ i ∈ l, 1 ≤ i) → l.Pairwise (· < ·) →
      (∀ x ∈ items, x ≠ 0 → ∀ i ∈ l, x < i) →
      (items.filter (fun x => x != 0)).Chain' (· < ·) →
      ((l.foldl (pagerStep np pg) (items, fl)).1.filter
          (fun x => x != 0)).Chain' (· < ·)
  | [], _, _, _, _, _, h4 => h4
  | a :: t, items, fl, h1, h2, h3, h4 => by
      have ha : 1 ≤ a := h1 a (List.mem_cons_self a t)
      have ht : ∀ i ∈ t, 1 ≤ i := fun i hi => h1 i (List.mem_cons_of_mem a hi)
      obtain ⟨hlt, hp⟩ := List.pairwise_cons.mp h2
      have ha0 : (a != 0) = true := by
        simpa using (by omega : a ≠ 0)
      have hfa : ((items ++ [a]).filter (fun x => x != 0)) =
          (items.filter (fun x => x != 0)) ++ [a] := by
        rw [List.filter_append]
        simp [ha0]
      have hf0 : ((items ++ [0]).filter (fun x => x != 0)) =
          items.filter (fun x => x != 0) := by
        rw [List.filter_append]
        simp
      have hchA : ((items ++ [a]).filter (fun x => x != 0)).Chain' (· < ·) := by
        rw [hfa, List.chain'_append]
        refine ⟨h4, List.chain'_singleton a, ?_⟩
        intro x hx y hy
        simp only [List.head?_cons, Option.mem_def, Option.some.injEq] at hy
        subst hy
        have hxmem : x ∈ items.filter (fun x => x != 0) :=
          mem_of_getLast_opt (Option.mem_def.mp hx)
        obtain ⟨hxi, hx0⟩ := List.mem_filter.mp hxmem
        exact h3 x hxi (by simpa using hx0) a (List.mem_cons_self a t)
      have hboundA : ∀ x ∈ items ++ [a], x ≠ 0 → ∀ i ∈ t, x < i := by
        intro x hx hx0 i hi
        rcases List.mem_append.mp hx with hx | hx
        · exact h3 x hx hx0 i (List.mem_cons_of_mem a hi)
        · have : x = a := by simpa using hx
          rw [this]
          exact hlt i hi
      have hbound0 : ∀ x ∈ items ++ [0], x ≠ 0 → ∀ i ∈ t, x < i := by
        intro x hx hx0 i hi
        rcases List.mem_append.mp hx with hx | hx
        · exact h3 x hx hx0 i (List.mem_cons_of_mem a hi)
        · have : x = 0 := by simpa using hx
          exact absurd this hx0
      rw [List.foldl_cons]
      rcases pagerStep_cases np pg items fl a with h | ⟨h, -⟩ | ⟨h, -⟩ | h
      · rw [h]
        exact filter_chain_key np pg t (items ++ [a]) fl ht hp hboundA hchA
      · rw [h]
        exact filter_chain_key np pg t (items ++ [a]) true ht hp hboundA hchA
      · rw [h]
        exact filter_chain_key np pg t (items ++ [0]) false ht hp hbound0
          (hf0 ▸ h4)
      · rw [h]
        exact filter_chain_key np pg t items false ht hp
          (fun x hx hx0 i hi => h3 x hx hx0 i (List.mem_cons_of_mem a hi)) h4

/-- One loop iteration only ever appends to the token list: the result is
the input list followed by whatever the iteration emits from the empty
list. -/
lemma pagerStep_shift (np : Nat) (pg : Int) (st : List Nat × Bool) (i : Nat) :
    pagerStep np pg st i =
      (st.1 ++ (pagerStep np pg ([], st.2) i).1,
        (pagerStep np pg ([], st.2) i).2) := by
  rcases st with ⟨items, fl⟩
  simp only [pagerStep]
  split_ifs <;> simp

/-- The whole loop only ever appends: folding from `(items, fl)` yields
`items` followed by the fold from `([], fl)`. -/
lemma foldl_pagerStep_shift (np : Nat) (pg : Int) :
    ∀ (l : List Nat) (st : List Nat × Bool),
      l.foldl (pagerStep np pg) st =
        (st.1 ++ (l.foldl (pagerStep np pg) ([], st.2)).1,
          (l.foldl (pagerStep np pg) ([], st.2)).2)
  | [], st => by simp
  | a :: t, st => by
      rw [List.foldl_cons, List.foldl_cons,
        foldl_pagerStep_shift np pg t (pagerStep np pg st a),
        foldl_pagerStep_shift np pg t (pagerStep np pg ([], st.2) a),
        pagerStep_shift np pg st a]
      simp [List.append_assoc]

/-- The first three loop iterations always emit the tokens 1, 2, 3 and
leave the flag untouched. -/
lemma pager_first_three (np : Nat) (pg : Int) :
    (List.range' 1 3).foldl (pagerStep np pg) ([], true) = ([1, 2, 3], true) := by
  rfl

/-- Iterations at indices from `num_pages - 2` on always append the index
literally (models.py lines 273-274), for 8 or more pages. -/
lemma pagerStep_ge_upper (np : Nat) (pg : Int) (st : List Nat × Bool) (i : Nat)
    (h8 : 8 ≤ np) (hi : np - 2 ≤ i) :
    pagerStep np pg st i = (st.1 ++ [i], st.2) := by
  have hc1 : ¬ (i ≤ lower_boundary) := by
    simp only [lower_boundary, PAGINATION_BOUNDARY]
    omega
  have hc2 : ¬ (i = lower_boundary + 1 ∧ (i : Int) = pg) := by
    rintro ⟨h, -⟩
    simp only [lower_boundary, PAGINATION_BOUNDARY] at h
    omega
  have hc3 : ¬ ((i : Int) = upper_boundary np - 1 ∧ (i : Int) = pg) := by
    rintro ⟨h, -⟩
    simp only [upper_boundary, PAGINATION_BOUNDARY] at h
    omega
  have hc4 : upper_boundary np ≤ (i : Int) := by
    simp only [upper_boundary, PAGINATION_BOUNDARY]
    omega
  simp only [pagerStep]
  rw [if_neg hc1, if_neg hc2, if_neg hc3, if_pos hc4]

/-- The last three loop iterations always append the last three page
numbers. -/
lemma pager_last_three (np : Nat) (pg : Int) (st : List Nat × Bool) (h8 : 8 ≤ np) :
    (List.range' (np - 2) 3).foldl (pagerStep np pg) st =
      (st.1 ++ [np - 2, np - 1, np], st.2) := by
  have hr : List.range' (np - 2) 3 = [np - 2, np - 1, np] := by
    have h0 : List.range' (np - 2) 3 = [np - 2, np - 2 + 1, np - 2 + 1 + 1] := rfl
    rw [h0, show np - 2 + 1 = np - 1 by omega, show np - 1 + 1 = np by omega]
  rw [hr, List.foldl_cons, pagerStep_ge_upper np pg st (np - 2) h8 (by omega),
    List.foldl_cons, pagerStep_ge_upper np pg _ (np - 1) h8 (by omega),
    List.foldl_cons, pagerStep_ge_upper np pg _ np h8 (by omega),
    List.foldl_nil]
  simp [List.append_assoc]

/-- For at least 8 pages the index range splits into the lower boundary,
the middle and the last three indices. -/
lemma range'_split (np : Nat) (h8 : 8 ≤ np) :
    List.range' 1 np =
      (List.range' 1 3 ++ List.range' 4 (np - 6)) ++ List.range' (np - 2) 3 := by
  have e1 := List.range'_append 1 3 (np - 3) 1
  have e2 := List.range'_append 4 (np - 6) 3 1
  rw [show 1 + 1 * 3 = 4 by norm_num] at e1
  rw [show np - 3 + 3 = np by omega] at e1
  rw [show 4 + 1 * (np - 6) = np - 2 by omega] at e2
  rw [show 3 + (np - 6) = np - 3 by omega] at e2
  rw [← e1, ← e2, List.append_assoc]

/-- C10: in the ellipsis case (`total_pages` above the effective maximum)
the returned token sequence contains at most two ellipsis tokens, its
page-number tokens are strictly increasing, and it starts with the pages
1, 2, 3 and ends with the last three page numbers. -/
theorem C10_ellipsis_case_shape (np : Nat) (cfg : Int) (pg : Int)
    (out : List Nat)
    (hmax : max (PAGINATION_MIN_PAGES : Int) cfg < (np : Int))
    (h : get_paginator_items np cfg (PageParam.int pg) = Except.ok out) :
    out.count 0 ≤ 2 ∧
    (out.filter (fun x => x != 0)).Chain' (· < ·) ∧
    ∃ mid, out = [1, 2, 3] ++ mid ++ [np - 2, np - 1, np] := by
  have h7 : (7 : Int) ≤ max (PAGINATION_MIN_PAGES : Int) cfg := by
    have h77 : ((PAGINATION_MIN_PAGES : Nat) : Int) = 7 := by
      norm_num [PAGINATION_MIN_PAGES]
    rw [← h77]
    exact le_max_left _ _
  have h8 : 8 ≤ np := by omega
  unfold get_paginator_items at h
  rw [if_neg (by omega)] at h
  simp only [parseInt] at h
  injection h with h
  subst h
  refine ⟨?_, ?_, ?_⟩
  · have hz := zeros_key np (min (max 1 pg) (np : Int)) (List.range' 1 np) [] true
      (fun i hi => (List.mem_range'_1.mp hi).1)
    have hc := countP_le_one_of_eq (min (max 1 pg) (np : Int)) (List.range' 1 np)
      (List.nodup_range' 1 np)
    unfold pagerItems
    simp only [List.count_nil, Bool.toNat_true] at hz
    omega
  · unfold pagerItems
    exact filter_chain_key np (min (max 1 pg) (np : Int)) (List.range' 1 np) [] true
      (fun i hi => (List.mem_range'_1.mp hi).1)
      (List.pairwise_lt_range' 1 np)
      (fun x hx => absurd hx (List.not_mem_nil x))
      (by simp)
  · unfold pagerItems
    rw [range'_split np h8, List.foldl_append, List.foldl_append,
      pager_first_three np (min (max 1 pg) (np : Int)),
      foldl_pagerStep_shift np (min (max 1 pg) (np : Int))
        (List.range' 4 (np - 6)) ([1, 2, 3], true),
      pager_last_three np (min (max 1 pg) (np : Int)) _ h8]
    exact ⟨((List.range' 4 (np - 6)).foldl
      (pagerStep np (min (max 1 pg) (np : Int))) ([], true)).1,
      by simp [List.append_assoc]⟩

/-- Witness for C10 on the concrete display for 20 pages, current page
10. -/
theorem C10_witness :
    [1, 2, 3, 0, 10, 0, 18, 19, 20].count 0 ≤ 2 ∧
    ([1, 2, 3, 0, 10, 0, 18, 19, 20].filter (fun x => x != 0)).Chain' (· < ·) :=
  ⟨(C10_ellipsis_case_shape 20 7 10 [1, 2, 3, 0, 10, 0, 18, 19, 20]
      (by decide) (by rfl)).1,
   (C10_ellipsis_case_shape 20 7 10 [1, 2, 3, 0, 10, 0, 18, 19, 20]
      (by decide) (by rfl)).2.1⟩
